import Mathlib

/-!
Verification of the ohos-doc-scraper repository.

This file gives a shallow embedding of the repository source (main.py,
fetch_documents.py, html_to_markdown.py) and proves or refutes the frozen
claims about it.

Modelling conventions:
CategoryNode to JSON category-tree nodes (missing dict keys become the Python
defaults used by the corresponding .get calls); stateful loop code becomes a
pure per-task outcome function (the Python loop carries no cross-task control
state: counters and accumulators never feed back into control flow); the
network, the filesystem existence check, and the per-task file write become
explicit oracles passed as function arguments; Python whitespace (the re
module class backslash-s and str.strip) is modelled over its ASCII part.
-/

/-- The character class removed by the first re.sub in
main.py `_sanitize_filename` (line 308): the set in the raw pattern. -/
def illegalChar (c : Char) : Bool :=
  c = '<' || c = '>' || c = ':' || c = '"' || c = '/' || c = '\\' ||
  c = '|' || c = '?' || c = '*'

/-- ASCII whitespace as matched by the Python regex class backslash-s and
stripped by str.strip (space, tab, newline, carriage return, vertical tab,
form feed). -/
def isPySpace (c : Char) : Bool :=
  c = ' ' || c = '\t' || c = '\n' || c = '\r' || c = '\x0b' || c = '\x0c'

/-- First step of `_sanitize_filename`: remove every illegal character. -/
def removeIllegal (l : List Char) : List Char :=
  l.filter (fun c => !illegalChar c)

/-- Second step of `_sanitize_filename`: the re.sub replacing each maximal
run of whitespace with a single underscore, written as a scanner whose flag
records whether the previous character was part of a whitespace run. -/
def collapseGo : Bool → List Char → List Char
  | _, [] => []
  | prevSpace, c :: cs =>
    if isPySpace c then
      if prevSpace then collapseGo true cs
      else '_' :: collapseGo true cs
    else c :: collapseGo false cs

def collapseWS (l : List Char) : List Char := collapseGo false l

/-- Third step of `_sanitize_filename`: str.strip, removing leading and
trailing whitespace. -/
def stripChars (l : List Char) : List Char :=
  ((l.dropWhile isPySpace).reverse.dropWhile isPySpace).reverse

/-- main.py `_sanitize_filename` (lines 303-310): remove the illegal
characters, collapse whitespace runs to single underscores, strip. -/
def sanitizeFilename (filename : String) : String :=
  ⟨stripChars (collapseWS (removeIllegal filename.data))⟩

/-! ## The category tree -/

mutual
/-- One node of the category.json tree, with the defaults the source
applies via .get: nodeName "", relateDocument "", relateDocId "",
nodeId "", isLeaf true, children []. -/
inductive CategoryNode : Type where
  | mk (nodeName relateDocument relateDocId nodeId : String) (isLeaf : Bool)
       (children : CategoryForest)
/-- An ordered sequence of sibling CategoryNode (a JSON array of nodes). -/
inductive CategoryForest : Type where
  | nil : CategoryForest
  | cons : CategoryNode → CategoryForest → CategoryForest
end

/-- One entry of the list built by main.py `_extract_doc_ids_with_path`. -/
structure FetchTask where
  nodeName : String
  relateDocument : String
  relateDocId : String
  nodeId : String
  path : String
  isLeaf : Bool
deriving DecidableEq, Repr

mutual
/-- Body of the `traverse` closure in main.py `_extract_doc_ids_with_path`
(lines 272-297), for a single node: build the node path from the current
path and the sanitized name, emit a task when both nodeName and
relateDocument are non-empty, then walk the children under the node path
when the name is non-empty, else under the unchanged current path. -/
def extractNode : CategoryNode → String → List FetchTask
  | .mk name ref rid nid leaf cs, currentPath =>
    let nodePath := if currentPath ≠ "" then currentPath ++ "/" ++ sanitizeFilename name
                    else sanitizeFilename name
    (if name ≠ "" ∧ ref ≠ "" then
      [{ nodeName := name, relateDocument := ref, relateDocId := rid,
         nodeId := nid, path := nodePath, isLeaf := leaf }]
     else [])
    ++ extractForest cs (if name ≠ "" then nodePath else currentPath)
/-- main.py `_extract_doc_ids_with_path` (lines 265-300) over a node list. -/
def extractForest : CategoryForest → String → List FetchTask
  | .nil, _ => []
  | .cons n ns, p => extractNode n p ++ extractForest ns p
end

mutual
/-- Count of nodes with both a non-empty display name and a non-empty
document reference, stated independently of the traversal. -/
def countNode : CategoryNode → Nat
  | .mk name ref _ _ _ cs => (if name ≠ "" ∧ ref ≠ "" then 1 else 0) + countForest cs
def countForest : CategoryForest → Nat
  | .nil => 0
  | .cons n ns => countNode n + countForest ns
end

mutual
/-- Pre-order list of (name, reference) pairs of the nodes with both a
non-empty display name and a non-empty document reference, stated
independently of the traversal and of path derivation. -/
def eligiblePairsNode : CategoryNode → List (String × String)
  | .mk name ref _ _ _ cs =>
    (if name ≠ "" ∧ ref ≠ "" then [(name, ref)] else []) ++ eligiblePairsForest cs
def eligiblePairsForest : CategoryForest → List (String × String)
  | .nil => []
  | .cons n ns => eligiblePairsNode n ++ eligiblePairsForest ns
end

/-! ## Path segments -/

/-- Split a character list at every slash; a path of n slashes yields n+1
segments, so a leading slash, a trailing slash, a double slash, or an empty
path each yield an empty segment. -/
def splitSlash : List Char → List (List Char)
  | [] => [[]]
  | c :: cs =>
    if c = '/' then [] :: splitSlash cs
    else
      match splitSlash cs with
      | s :: rest => (c :: s) :: rest
      | [] => [[c]]

/-- Whether a derived path contains an empty slash-separated segment. -/
def hasEmptySegment (s : String) : Bool :=
  (splitSlash s.data).any List.isEmpty

mutual
/-- Every display name in the tree is either empty (the node is unnamed)
or survives sanitization with a non-empty segment. -/
def goodNamesNode : CategoryNode → Bool
  | .mk name _ _ _ _ cs =>
    (name == "" || sanitizeFilename name != "") && goodNamesForest cs
def goodNamesForest : CategoryForest → Bool
  | .nil => true
  | .cons n ns => goodNamesNode n && goodNamesForest ns
end

/-! ## The fetch-and-save orchestrator (main.py `fetch_and_save_documents`) -/

/-- One anchor entry of a fetched document. -/
structure Anchor where
  title : Option String
deriving DecidableEq, Repr

/-- The dictionary returned by a successful `fetch_document` call
(main.py lines 31-78): the fields projected out of the response value.
`content` is the inner HTML body string when present and non-empty
(`doc_info.get("content") and doc_info["content"].get("content")`). -/
structure FetchedDoc where
  docId : Option String
  title : Option String
  fileName : Option String
  anchorList : List Anchor
  content : Option String
deriving DecidableEq, Repr

/-- Outcome of the read of category.json at the top of
`fetch_and_save_documents` (lines 109-117) and of `main` in
fetch_documents.py (lines 98-106). -/
inductive ReadError where
  | fileNotFound
  | invalidJSON
deriving DecidableEq, Repr

/-- What happened to one task of the loop in `fetch_and_save_documents`
(main.py lines 150-221): skipped without a network call; fetch call failed
(`fetch_document` returned None); fetched and the Markdown file written;
fetched but the write raised; fetched with save_markdown disabled. -/
inductive TaskOutcome where
  | skipped
  | fetchFailed (objectId : String)
  | savedOk (objectId : String) (file : String)
  | saveFailed (objectId : String) (file : String)
  | fetchedOnly (objectId : String)
deriving DecidableEq, Repr

/-- os.path.join(DOCS_DIR, doc path + ".md") with DOCS_DIR = "docs"
(main.py lines 28, 134, 178); the derived paths are relative, so join is
concatenation with a slash. -/
def mdFilePath (p : String) : String := "docs/" ++ p ++ ".md"

/-- The `existing_files` set of main.py lines 129-137: the task paths whose
Markdown file already exists, as a list of distinct paths (a Python set). -/
def existingPaths (docs : List FetchTask) (fileExists : String → Bool) : List String :=
  ((docs.map FetchTask.path).filter (fun p => fileExists (mdFilePath p))).dedup

/-- The `existing_files` set actually built by the run: main.py line 131
gates the scan on skip_existing and save_markdown (after
`os.makedirs(DOCS_DIR, exist_ok=True)` on line 125 the directory exists, so
the third conjunct of the gate holds whenever save_markdown does). -/
def existingFilesOf (skipExisting saveMarkdown : Bool) (docs : List FetchTask)
    (fileExists : String → Bool) : List String :=
  if skipExisting && saveMarkdown then existingPaths docs fileExists else []

/-- The skip test of main.py line 156:
`if skip_existing and doc_path in existing_files`. -/
def skipCond (skipExisting : Bool) (existingFiles : List String)
    (doc : FetchTask) : Bool :=
  skipExisting && existingFiles.contains doc.path

/-- The body of the per-task loop of main.py lines 150-221 for the task at
position i. The network is the oracle fetchF (None models a transport
error, an application-level rejection, or an unparsable response, exactly
the three handlers inside `fetch_document`); the write oracle writeOk
models whether the file write of lines 177-211 raises. The loop carries no
cross-task control state (its counters never feed back into its control
flow), so the outcome is a pure function of the task and the oracles. -/
def taskOutcome (skipExisting saveMarkdown : Bool) (existingFiles : List String)
    (fetchF : Nat → Option FetchedDoc) (writeOk : Nat → Bool)
    (i : Nat) (doc : FetchTask) : TaskOutcome :=
  if skipCond skipExisting existingFiles doc then .skipped
  else
    match fetchF i with
    | none => .fetchFailed doc.relateDocument
    | some _ =>
      if saveMarkdown then
        if writeOk i then .savedOk doc.relateDocument (mdFilePath doc.path)
        else .saveFailed doc.relateDocument (mdFilePath doc.path)
      else .fetchedOnly doc.relateDocument

/-- enumerate(docs) with a starting index, 0-based. -/
def enumFrom {α : Type} : Nat → List α → List (Nat × α)
  | _, [] => []
  | i, a :: as => (i, a) :: enumFrom (i + 1) as

/-- The outcomes of the whole loop, in task order. -/
def runOutcomes (skipExisting saveMarkdown : Bool) (existingFiles : List String)
    (fetchF : Nat → Option FetchedDoc) (writeOk : Nat → Bool)
    (docs : List FetchTask) : List TaskOutcome :=
  (enumFrom 0 docs).map
    (fun q => taskOutcome skipExisting saveMarkdown existingFiles fetchF writeOk q.1 q.2)

def isSkippedO : TaskOutcome → Bool
  | .skipped => true
  | _ => false

def isFetchFailed : TaskOutcome → Bool
  | .fetchFailed _ => true
  | _ => false

/-- The task produced a fetched document (doc_info was not None), so it was
appended to `documents` (main.py line 172) whatever the later write did. -/
def isFetched : TaskOutcome → Bool
  | .savedOk _ _ => true
  | .saveFailed _ _ => true
  | .fetchedOnly _ => true
  | _ => false

def isSavedOk : TaskOutcome → Bool
  | .savedOk _ _ => true
  | _ => false

def isSaveFailed : TaskOutcome → Bool
  | .saveFailed _ _ => true
  | _ => false

/-- The positions of the tasks that made a network call (every non-skipped
task calls `fetch_document` exactly once), counting from i. -/
def callIdxFrom : Nat → List TaskOutcome → List Nat
  | _, [] => []
  | i, o :: os => (if isSkippedO o then [] else [i]) ++ callIdxFrom (i + 1) os

def callIdxOf (outcomes : List TaskOutcome) : List Nat := callIdxFrom 0 outcomes

/-- The (position, file path) pairs of the successful file writes,
counting from i. -/
def writesFrom : Nat → List TaskOutcome → List (Nat × String)
  | _, [] => []
  | i, o :: os =>
    (match o with
     | .savedOk _ f => [(i, f)]
     | _ => []) ++ writesFrom (i + 1) os

def writesOf (outcomes : List TaskOutcome) : List (Nat × String) := writesFrom 0 outcomes

/-- The dictionary returned by `fetch_and_save_documents`
(main.py lines 254-262), plus the outcome trace of the loop. -/
structure RunResult where
  success : Bool
  total : Nat
  successful : Nat
  failed : Nat
  saved : Nat
  skipped : Nat
  outcomes : List TaskOutcome
deriving DecidableEq, Repr

/-- main.py `fetch_and_save_documents` (lines 81-262). The categoryRead
argument is the outcome of reading category.json; on a read error the
function returns `{"success": False, ...}` before any task processing.
Otherwise it extracts the tasks with the empty root path, builds the
existing-files set, runs the loop, and returns the counters: `failed`
counts fetch failures (line 217), `saved` counts successful writes
(line 210), `successful` is len(documents) (every fetched task, line 172),
`skipped` is len(existing_files) computed before the loop (line 137). -/
def fetchAndSaveDocuments (categoryRead : Except ReadError CategoryForest)
    (fileExists : String → Bool) (fetchF : Nat → Option FetchedDoc)
    (writeOk : Nat → Bool) (saveMarkdown skipExisting : Bool) : RunResult :=
  match categoryRead with
  | .error _ =>
    { success := false, total := 0, successful := 0, failed := 0,
      saved := 0, skipped := 0, outcomes := [] }
  | .ok forest =>
    let docs := extractForest forest ""
    let existingFiles := existingFilesOf skipExisting saveMarkdown docs fileExists
    let outcomes := runOutcomes skipExisting saveMarkdown existingFiles fetchF writeOk docs
    { success := true
      total := docs.length
      successful := outcomes.countP isFetched
      failed := outcomes.countP isFetchFailed
      saved := outcomes.countP isSavedOk
      skipped := existingFiles.length
      outcomes := outcomes }

/-- The `__main__` block of main.py (lines 313-343): run the pipeline with
save_markdown and skip_existing both True and exit 1 when the result is not
successful, else finish normally (exit 0). -/
def mainPyExitCode (categoryRead : Except ReadError CategoryForest)
    (fileExists : String → Bool) (fetchF : Nat → Option FetchedDoc)
    (writeOk : Nat → Bool) : Nat :=
  if (fetchAndSaveDocuments categoryRead fileExists fetchF writeOk true true).success
  then 0 else 1

/-! ## The standalone fetch_documents.py entry point -/

/-- One entry of the list built by fetch_documents.py `extract_doc_ids`. -/
structure SimpleDoc where
  nodeName : String
  relateDocument : String
  relateDocId : String
  nodeId : String
deriving DecidableEq, Repr

mutual
/-- fetch_documents.py `extract_doc_ids` (lines 20-42): emit a record when
nodeName and relateDocId are both non-empty (note: relateDocId, not
relateDocument), then always walk the children. -/
def extractDocIdsNode : CategoryNode → List SimpleDoc
  | .mk name ref rid nid _ cs =>
    (if name ≠ "" ∧ rid ≠ "" then
      [{ nodeName := name, relateDocument := ref, relateDocId := rid, nodeId := nid }]
     else [])
    ++ extractDocIdsForest cs
def extractDocIdsForest : CategoryForest → List SimpleDoc
  | .nil => []
  | .cons n ns => extractDocIdsNode n ++ extractDocIdsForest ns
end

/-- Observable result of running fetch_documents.py as a script: the
process exit code and the fetch calls made (as position, object id). -/
structure SimpleRun where
  exitCode : Nat
  calls : List (Nat × String)
deriving DecidableEq, Repr

/-- fetch_documents.py `main` (lines 91-160) run as a script (line 164):
on a read error it prints a message and returns from main, so the process
finishes with exit code 0 and makes no fetch call; otherwise it calls
`fetch_document` once per extracted record and finishes with exit code 0
(the model assumes the final result-file writes do not raise). -/
def fetchDocumentsMain (categoryRead : Except ReadError CategoryForest)
    (fetchF : Nat → Option FetchedDoc) : SimpleRun :=
  match categoryRead with
  | .error _ => { exitCode := 0, calls := [] }
  | .ok forest =>
    { exitCode := 0
      calls := (enumFrom 0 (extractDocIdsForest forest)).map
        (fun q => (q.1, q.2.relateDocument)) }

/-! ## html_to_markdown.py -/

/-- html_to_markdown.py `html_to_markdown` (lines 14-54). The whole try
body — the html2text conversion with its option settings, the blank-line
cleanup re.sub, and the final strip — calls into the external html2text
collaborator, so it is abstracted as the oracle conv: `conv html = some md`
models the try body returning md, `conv html = none` models an exception
raised anywhere inside it. The function first returns "" on an empty
(falsy) input, and on an exception falls back to returning the raw input. -/
def htmlToMarkdown (conv : String → Option String) (htmlContent : String) : String :=
  if htmlContent = "" then ""
  else
    match conv htmlContent with
    | some md => md
    | none => htmlContent

/-! # Theorems -/

mutual
theorem extractNode_map_pairs (n : CategoryNode) (p : String) :
    (extractNode n p).map (fun t => (t.nodeName, t.relateDocument)) =
      eligiblePairsNode n := by
  match n with
  | .mk name ref rid nid leaf cs =>
    by_cases h : name ≠ "" ∧ ref ≠ "" <;>
      simp [extractNode, eligiblePairsNode, h, extractForest_map_pairs cs]
theorem extractForest_map_pairs (f : CategoryForest) (p : String) :
    (extractForest f p).map (fun t => (t.nodeName, t.relateDocument)) =
      eligiblePairsForest f := by
  match f with
  | .nil => simp [extractForest, eligiblePairsForest]
  | .cons n ns =>
    simp [extractForest, eligiblePairsForest, extractNode_map_pairs n,
      extractForest_map_pairs ns]
end

mutual
theorem extractNode_length (n : CategoryNode) (p : String) :
    (extractNode n p).length = countNode n := by
  match n with
  | .mk name ref rid nid leaf cs =>
    by_cases h : name ≠ "" ∧ ref ≠ "" <;>
      simp [extractNode, countNode, h, extractForest_length cs, Nat.add_comm]
theorem extractForest_length (f : CategoryForest) (p : String) :
    (extractForest f p).length = countForest f := by
  match f with
  | .nil => simp [extractForest, countForest]
  | .cons n ns =>
    simp [extractForest, countForest, extractNode_length n, extractForest_length ns]
end

/-! ## Sanitizer lemmas -/

theorem mem_collapseGo (l : List Char) : ∀ (b : Bool) (c : Char),
    c ∈ collapseGo b l → c = '_' ∨ (c ∈ l ∧ isPySpace c = false) := by
  induction l with
  | nil => intro b c h; simp [collapseGo] at h
  | cons a as ih =>
    intro b c h
    by_cases ha : isPySpace a
    · cases b with
      | true =>
        rw [show collapseGo true (a :: as) = collapseGo true as by
          simp [collapseGo, ha]] at h
        rcases ih true c h with h1 | h2
        · exact Or.inl h1
        · exact Or.inr ⟨List.mem_cons_of_mem a h2.1, h2.2⟩
      | false =>
        rw [show collapseGo false (a :: as) = '_' :: collapseGo true as by
          simp [collapseGo, ha]] at h
        rcases List.mem_cons.mp h with h1 | h1
        · exact Or.inl h1
        · rcases ih true c h1 with h2 | h3
          · exact Or.inl h2
          · exact Or.inr ⟨List.mem_cons_of_mem a h3.1, h3.2⟩
    · have ha' : isPySpace a = false := by simpa using ha
      rw [show collapseGo b (a :: as) = a :: collapseGo false as by
        simp [collapseGo, ha']] at h
      rcases List.mem_cons.mp h with h1 | h1
      · refine Or.inr ⟨?_, ?_⟩ <;> rw [h1]
        · exact List.mem_cons_self a as
        · exact ha'
      · rcases ih false c h1 with h2 | h3
        · exact Or.inl h2
        · exact Or.inr ⟨List.mem_cons_of_mem a h3.1, h3.2⟩

theorem mem_dropWhile_imp {p : Char → Bool} {l : List Char} {c : Char}
    (h : c ∈ l.dropWhile p) : c ∈ l := by
  induction l with
  | nil => simpa [List.dropWhile] using h
  | cons a as ih =>
    by_cases ha : p a
    · simp only [List.dropWhile, ha] at h
      exact List.mem_cons_of_mem a (ih h)
    · simpa [List.dropWhile, ha] using h

theorem mem_stripChars {l : List Char} {c : Char} (h : c ∈ stripChars l) : c ∈ l := by
  unfold stripChars at h
  rw [List.mem_reverse] at h
  have h1 := mem_dropWhile_imp h
  rw [List.mem_reverse] at h1
  exact mem_dropWhile_imp h1

theorem sanitize_chars_ok (l : List Char) (c : Char)
    (h : c ∈ stripChars (collapseWS (removeIllegal l))) :
    illegalChar c = false ∧ isPySpace c = false := by
  have h1 := mem_stripChars h
  rcases mem_collapseGo _ _ _ h1 with h2 | h2
  · subst h2; exact ⟨by decide, by decide⟩
  · rcases h2 with ⟨h3, h4⟩
    refine ⟨?_, h4⟩
    have := List.mem_filter.mp h3
    simpa using this.2

theorem sanitizeFilename_chars (s : String) (c : Char)
    (h : c ∈ (sanitizeFilename s).data) :
    illegalChar c = false ∧ isPySpace c = false :=
  sanitize_chars_ok s.data c h

theorem collapseGo_nospace_id (l : List Char)
    (h : ∀ c ∈ l, isPySpace c = false) : ∀ b, collapseGo b l = l := by
  induction l with
  | nil => intro b; rfl
  | cons a as ih =>
    intro b
    have ha : isPySpace a = false := h a (List.mem_cons_self a as)
    have has : ∀ c ∈ as, isPySpace c = false := fun c hc => h c (List.mem_cons_of_mem a hc)
    simp [collapseGo, ha, ih has false]

theorem dropWhile_nospace_id (l : List Char)
    (h : ∀ c ∈ l, isPySpace c = false) : l.dropWhile isPySpace = l := by
  cases l with
  | nil => rfl
  | cons a as =>
    have ha : isPySpace a = false := h a (List.mem_cons_self a as)
    simp [List.dropWhile, ha]

theorem stripChars_nospace_id (l : List Char)
    (h : ∀ c ∈ l, isPySpace c = false) : stripChars l = l := by
  unfold stripChars
  rw [dropWhile_nospace_id l h]
  rw [dropWhile_nospace_id l.reverse (fun c hc => h c (List.mem_reverse.mp hc))]
  exact List.reverse_reverse l

theorem removeIllegal_noillegal_id (l : List Char)
    (h : ∀ c ∈ l, illegalChar c = false) : removeIllegal l = l := by
  unfold removeIllegal
  exact List.filter_eq_self.mpr (fun c hc => by simp [h c hc])

theorem sanitizeFilename_idem (s : String) :
    sanitizeFilename (sanitizeFilename s) = sanitizeFilename s := by
  have hok : ∀ c ∈ (sanitizeFilename s).data,
      illegalChar c = false ∧ isPySpace c = false :=
    fun c hc => sanitizeFilename_chars s c hc
  have hill : ∀ c ∈ (sanitizeFilename s).data, illegalChar c = false :=
    fun c hc => (hok c hc).1
  have hsp : ∀ c ∈ (sanitizeFilename s).data, isPySpace c = false :=
    fun c hc => (hok c hc).2
  show String.mk (stripChars (collapseWS (removeIllegal (sanitizeFilename s).data)))
      = sanitizeFilename s
  rw [removeIllegal_noillegal_id _ hill]
  rw [show collapseWS (sanitizeFilename s).data = (sanitizeFilename s).data from
    collapseGo_nospace_id _ hsp false]
  rw [stripChars_nospace_id _ hsp]

theorem collapseGo_true_spaces (r : List Char) (l : List Char)
    (h : ∀ c ∈ r, isPySpace c = true) :
    collapseGo true (r ++ l) = collapseGo true l := by
  induction r with
  | nil => rfl
  | cons a as ih =>
    have ha : isPySpace a = true := h a (List.mem_cons_self a as)
    have has : ∀ c ∈ as, isPySpace c = true := fun c hc => h c (List.mem_cons_of_mem a hc)
    simp [collapseGo, ha, ih has]

theorem collapseGo_run (l₁ r l₂ : List Char)
    (h1 : ∀ c ∈ l₁, isPySpace c = false)
    (h2 : ∀ c ∈ r, isPySpace c = true) (h3 : r ≠ []) :
    collapseGo false (l₁ ++ r ++ l₂) = l₁ ++ '_' :: collapseGo true l₂ := by
  induction l₁ with
  | nil =>
    cases r with
    | nil => exact absurd rfl h3
    | cons a as =>
      have ha : isPySpace a = true := h2 a (List.mem_cons_self a as)
      have has : ∀ c ∈ as, isPySpace c = true := fun c hc => h2 c (List.mem_cons_of_mem a hc)
      simp [collapseGo, ha, collapseGo_true_spaces as l₂ has]
  | cons a as ih =>
    have ha : isPySpace a = false := h1 a (List.mem_cons_self a as)
    have has : ∀ c ∈ as, isPySpace c = false := fun c hc => h1 c (List.mem_cons_of_mem a hc)
    simp only [List.cons_append, collapseGo, ha, if_false, Bool.false_eq_true]
    simpa using ih has

/-! ## Claim C1 -/

/-- C1: for every input tree the flattened task list contains exactly one
task per node having both a non-empty display name and a non-empty document
reference, in pre-order depth-first order, at any nesting depth; purely
structural nodes are walked for their children but not emitted. The map
equality pins the emitted tasks and their order to the pre-order list of
eligible (name, reference) pairs, and the length equality to the count of
eligible nodes. -/
theorem c1_flatten_preorder_eligible (f : CategoryForest) (p : String) :
    ((extractForest f p).map (fun t => (t.nodeName, t.relateDocument)) =
      eligiblePairsForest f) ∧
    (extractForest f p).length = countForest f :=
  ⟨extractForest_map_pairs f p, extractForest_length f p⟩

/-! ## Claim C5 -/

/-- C5: `_sanitize_filename` is total and deterministic (it is a Lean
function); no character of its output is one of the removed characters
< > : " / \ | ? * and no character of its output is whitespace (so the
result carries no leading or trailing whitespace); each maximal whitespace
run is collapsed to a single underscore by the second substitution; and the
empty string maps to the empty string. -/
theorem c5_sanitize_behavior :
    (∀ s : String, ∀ c ∈ (sanitizeFilename s).data,
        illegalChar c = false ∧ isPySpace c = false) ∧
    sanitizeFilename "" = "" ∧
    (∀ l₁ r l₂ : List Char, (∀ c ∈ l₁, isPySpace c = false) →
      (∀ c ∈ r, isPySpace c = true) → r ≠ [] →
      collapseGo false (l₁ ++ r ++ l₂) = l₁ ++ '_' :: collapseGo true l₂) :=
  ⟨fun s c hc => sanitizeFilename_chars s c hc, rfl, collapseGo_run⟩

/-- Witness for C5 at concrete inputs. -/
theorem c5_sanitize_behavior_witness :
    ('a' ∈ (sanitizeFilename " a<b ").data) ∧
    (illegalChar 'a' = false ∧ isPySpace 'a' = false) ∧
    collapseGo false (['x'] ++ [' ', '\t'] ++ ['y']) = ['x', '_', 'y'] :=
  ⟨by decide, c5_sanitize_behavior.1 " a<b " 'a' (by decide),
   c5_sanitize_behavior.2.2 ['x'] [' ', '\t'] ['y']
     (by decide) (by decide) (by decide)⟩

/-! ## Claim C6 -/

/-- C6: `_sanitize_filename` is idempotent. -/
theorem c6_sanitize_idempotent (x : String) :
    sanitizeFilename (sanitizeFilename x) = sanitizeFilename x :=
  sanitizeFilename_idem x

/-! ## Path-segment lemmas -/

theorem splitSlash_ne_nil (l : List Char) : splitSlash l ≠ [] := by
  cases l with
  | nil => simp [splitSlash]
  | cons c cs =>
    by_cases hc : c = '/'
    · simp [splitSlash, hc]
    · simp only [splitSlash, hc, if_false]
      cases splitSlash cs <;> simp

theorem splitSlash_noslash (l : List Char) (h : '/' ∉ l) : splitSlash l = [l] := by
  induction l with
  | nil => rfl
  | cons c cs ih =>
    have hc : ¬c = '/' := fun hh => h (hh ▸ List.mem_cons_self c cs)
    have hcs : '/' ∉ cs := fun hh => h (List.mem_cons_of_mem c hh)
    simp [splitSlash, hc, ih hcs]

theorem splitSlash_append_slash (p seg : List Char) (h : '/' ∉ seg) :
    splitSlash (p ++ '/' :: seg) = splitSlash p ++ [seg] := by
  induction p with
  | nil => simp [splitSlash, splitSlash_noslash seg h]
  | cons c cs ih =>
    by_cases hc : c = '/'
    · simp [splitSlash, hc, ih]
    · rcases hs : splitSlash cs with _ | ⟨s, rest⟩
      · exact absurd hs (splitSlash_ne_nil cs)
      · simp [splitSlash, hc, ih, hs]

theorem sanitize_no_slash (name : String) : '/' ∉ (sanitizeFilename name).data := by
  intro h
  have := (sanitizeFilename_chars name '/' h).1
  simp [illegalChar] at this

theorem string_ne_empty_data {s : String} (h : s ≠ "") : s.data ≠ [] := by
  intro hd
  apply h
  cases s with
  | mk l => simp at hd; simp [hd]

theorem hasEmptySegment_single (seg : String) (hne : seg ≠ "")
    (hs : '/' ∉ seg.data) : hasEmptySegment seg = false := by
  unfold hasEmptySegment
  rw [splitSlash_noslash seg.data hs]
  simp [List.isEmpty_iff, string_ne_empty_data hne]

theorem hasEmptySegment_append (p seg : String) (hp : hasEmptySegment p = false)
    (hne : seg ≠ "") (hs : '/' ∉ seg.data) :
    hasEmptySegment (p ++ "/" ++ seg) = false := by
  unfold hasEmptySegment
  have hdata : (p ++ "/" ++ seg).data = p.data ++ '/' :: seg.data := by
    rw [String.data_append, String.data_append]
    simp
  rw [hdata, splitSlash_append_slash p.data seg.data hs]
  unfold hasEmptySegment at hp
  simp [List.any_append, hp, List.isEmpty_iff, string_ne_empty_data hne]

mutual
theorem extractNode_noEmptySeg (n : CategoryNode) (p : String)
    (hg : goodNamesNode n = true) (hp : p = "" ∨ hasEmptySegment p = false) :
    ∀ t ∈ extractNode n p, hasEmptySegment t.path = false := by
  match n with
  | .mk name ref rid nid leaf cs =>
    intro t ht
    rw [goodNamesNode] at hg
    rw [Bool.and_eq_true] at hg
    have hname := hg.1
    have hcs := hg.2
    by_cases hn : name = ""
    · rw [show extractNode (.mk name ref rid nid leaf cs) p = extractForest cs p by
        simp [extractNode, hn]] at ht
      exact extractForest_noEmptySeg cs p hcs hp t ht
    · have hseg : sanitizeFilename name ≠ "" := by
        simp only [Bool.or_eq_true] at hname
        rcases hname with h1 | h1
        · exact absurd (by simpa using h1) hn
        · simpa using h1
      have hnodePath : hasEmptySegment
          (if p ≠ "" then p ++ "/" ++ sanitizeFilename name
           else sanitizeFilename name) = false := by
        rcases hp with hp1 | hp1
        · rw [if_neg (by simp [hp1])]
          exact hasEmptySegment_single _ hseg (sanitize_no_slash name)
        · by_cases hpe : p = ""
          · rw [if_neg (by simp [hpe])]
            exact hasEmptySegment_single _ hseg (sanitize_no_slash name)
          · rw [if_pos hpe]
            exact hasEmptySegment_append p _ hp1 hseg (sanitize_no_slash name)
      rw [show extractNode (.mk name ref rid nid leaf cs) p =
          (if name ≠ "" ∧ ref ≠ "" then
            [{ nodeName := name, relateDocument := ref, relateDocId := rid,
               nodeId := nid,
               path := if p ≠ "" then p ++ "/" ++ sanitizeFilename name
                       else sanitizeFilename name,
               isLeaf := leaf }]
           else [])
          ++ extractForest cs (if p ≠ "" then p ++ "/" ++ sanitizeFilename name
                               else sanitizeFilename name) by
        simp [extractNode, hn]] at ht
      rcases List.mem_append.mp ht with h1 | h1
      · by_cases hr : name ≠ "" ∧ ref ≠ ""
        · rw [if_pos hr] at h1
          rcases List.mem_singleton.mp h1 with rfl
          exact hnodePath
        · rw [if_neg hr] at h1
          simp at h1
      · exact extractForest_noEmptySeg cs _ hcs (Or.inr hnodePath) t h1
theorem extractForest_noEmptySeg (f : CategoryForest) (p : String)
    (hg : goodNamesForest f = true) (hp : p = "" ∨ hasEmptySegment p = false) :
    ∀ t ∈ extractForest f p, hasEmptySegment t.path = false := by
  match f with
  | .nil => intro t ht; simp [extractForest] at ht
  | .cons n ns =>
    intro t ht
    rw [goodNamesForest, Bool.and_eq_true] at hg
    rcases List.mem_append.mp (by simpa [extractForest] using ht) with h1 | h1
    · exact extractNode_noEmptySeg n p hg.1 hp t h1
    · exact extractForest_noEmptySeg ns p hg.2 hp t h1
end

/-! ## Claim C4 -/

/-- C4 counterexample: the claim "no derived path produced by the walk
contains an empty segment" fails on the code. In the tree
[{name "A", ref "rA", children [{name "?", ref "r"}]}] the child's display
name "?" is non-empty but sanitizes to "", so its derived path is "A/"
(current path, slash, empty sanitized segment), which ends in an empty
segment; the task is still emitted because its raw name and reference are
non-empty. -/
theorem c4_counterexample :
    ((extractForest
        (.cons (.mk "A" "rA" "" "" true
          (.cons (.mk "?" "r" "" "" true .nil) .nil)) .nil) "").map
       FetchTask.path = ["A", "A/"]) ∧
    hasEmptySegment "A/" = true := by decide

/-- C4 (amended): children of a node with an empty display name attach
directly under that node's parent path (the node itself contributes no path
segment and is not emitted); and provided every display name in the tree is
either empty or sanitizes to a non-empty segment, no derived path produced
by the walk from the root contains an empty segment. Without that proviso a
non-empty name that sanitizes to "" (such as "?") yields an empty segment,
as the counterexample shows. -/
theorem c4_unnamed_node_paths :
    (∀ (ref rid nid : String) (leaf : Bool) (cs : CategoryForest) (p : String),
        extractNode (.mk "" ref rid nid leaf cs) p = extractForest cs p) ∧
    (∀ (f : CategoryForest) (p : String), goodNamesForest f = true →
        (p = "" ∨ hasEmptySegment p = false) →
        ∀ t ∈ extractForest f p, hasEmptySegment t.path = false) :=
  ⟨fun ref rid nid leaf cs p => by simp [extractNode],
   fun f p hg hp t ht => extractForest_noEmptySeg f p hg hp t ht⟩

/-- Witness for C4 at concrete inputs: the scenario of the spec — an
unnamed root node with child {name "C", ref "r3"} gives the child task
path "C", not "/C" — and the no-empty-segment conclusion at that tree. -/
theorem c4_unnamed_node_paths_witness :
    (extractNode (.mk "" "" "" "" true
        (.cons (.mk "C" "r3" "" "" true .nil) .nil)) "" =
      [{ nodeName := "C", relateDocument := "r3", relateDocId := "",
         nodeId := "", path := "C", isLeaf := true }]) ∧
    hasEmptySegment (FetchTask.path
      { nodeName := "C", relateDocument := "r3", relateDocId := "",
        nodeId := "", path := "C", isLeaf := true }) = false :=
  ⟨(c4_unnamed_node_paths.1 "" "" "" true
      (.cons (.mk "C" "r3" "" "" true .nil) .nil) "").trans (by decide),
   c4_unnamed_node_paths.2
     (.cons (.mk "" "" "" "" true
        (.cons (.mk "C" "r3" "" "" true .nil) .nil)) .nil) ""
     (by decide) (Or.inl rfl)
     { nodeName := "C", relateDocument := "r3", relateDocId := "",
       nodeId := "", path := "C", isLeaf := true } (by decide)⟩

/-! ## Orchestrator lemmas -/

theorem enumFrom_length {α : Type} (l : List α) : ∀ k, (enumFrom k l).length = l.length := by
  induction l with
  | nil => intro k; rfl
  | cons a as ih => intro k; simp [enumFrom, ih (k + 1)]

theorem enumFrom_get {α : Type} (l : List α) : ∀ (k i : Nat),
    (enumFrom k l).get? i = (l.get? i).map (fun a => (k + i, a)) := by
  induction l with
  | nil => intro k i; simp [enumFrom]
  | cons a as ih =>
    intro k i
    cases i with
    | zero => simp [enumFrom]
    | succ j =>
      rw [show enumFrom k (a :: as) = (k, a) :: enumFrom (k + 1) as from rfl]
      rw [List.get?_cons_succ, List.get?_cons_succ, ih (k + 1) j]
      cases as.get? j with
      | none => rfl
      | some x => simp; omega

theorem runOutcomes_length (se sm : Bool) (ex : List String)
    (f : Nat → Option FetchedDoc) (w : Nat → Bool) (docs : List FetchTask) :
    (runOutcomes se sm ex f w docs).length = docs.length := by
  unfold runOutcomes
  rw [List.length_map, enumFrom_length docs 0]

theorem runOutcomes_get (se sm : Bool) (ex : List String)
    (f : Nat → Option FetchedDoc) (w : Nat → Bool) (docs : List FetchTask) (i : Nat) :
    (runOutcomes se sm ex f w docs).get? i =
      (docs.get? i).map (fun d => taskOutcome se sm ex f w i d) := by
  unfold runOutcomes
  rw [List.get?_map, enumFrom_get docs 0 i]
  cases docs.get? i <;> simp

theorem runOutcomes_countP (se sm : Bool) (ex : List String)
    (f : Nat → Option FetchedDoc) (w : Nat → Bool) (docs : List FetchTask)
    (q : TaskOutcome → Bool) :
    (runOutcomes se sm ex f w docs).countP q =
      (enumFrom 0 docs).countP (fun p => q (taskOutcome se sm ex f w p.1 p.2)) := by
  unfold runOutcomes
  rw [List.countP_map]
  rfl

theorem taskOutcome_of_skip {se sm : Bool} {ex : List String}
    {f : Nat → Option FetchedDoc} {w : Nat → Bool} {i : Nat} {d : FetchTask}
    (h : skipCond se ex d = true) :
    taskOutcome se sm ex f w i d = .skipped := by
  simp [taskOutcome, h]

theorem isSkippedO_taskOutcome (se sm : Bool) (ex : List String)
    (f : Nat → Option FetchedDoc) (w : Nat → Bool) (i : Nat) (d : FetchTask) :
    isSkippedO (taskOutcome se sm ex f w i d) = skipCond se ex d := by
  by_cases h : skipCond se ex d = true
  · simp [taskOutcome, h, isSkippedO]
  · have h' : skipCond se ex d = false := by simpa using h
    simp only [taskOutcome, h', Bool.false_eq_true, if_false]
    cases f i with
    | none => simp [isSkippedO, h']
    | some v =>
      by_cases hsm : sm = true <;> by_cases hw : w i = true <;>
        simp [hsm, hw, isSkippedO, h'] <;> simp_all [isSkippedO]

theorem isFetchFailed_taskOutcome (se sm : Bool) (ex : List String)
    (f : Nat → Option FetchedDoc) (w : Nat → Bool) (i : Nat) (d : FetchTask) :
    isFetchFailed (taskOutcome se sm ex f w i d) =
      (!(skipCond se ex d) && (f i).isNone) := by
  by_cases h : skipCond se ex d = true
  · simp [taskOutcome, h, isFetchFailed]
  · have h' : skipCond se ex d = false := by simpa using h
    simp only [taskOutcome, h', Bool.false_eq_true, if_false]
    cases f i with
    | none => simp [isFetchFailed, h']
    | some v =>
      by_cases hsm : sm = true <;> by_cases hw : w i = true <;>
        simp_all [isFetchFailed]

theorem isFetched_taskOutcome (se sm : Bool) (ex : List String)
    (f : Nat → Option FetchedDoc) (w : Nat → Bool) (i : Nat) (d : FetchTask) :
    isFetched (taskOutcome se sm ex f w i d) =
      (!(skipCond se ex d) && (f i).isSome) := by
  by_cases h : skipCond se ex d = true
  · simp [taskOutcome, h, isFetched]
  · have h' : skipCond se ex d = false := by simpa using h
    simp only [taskOutcome, h', Bool.false_eq_true, if_false]
    cases f i with
    | none => simp [isFetched, h']
    | some v =>
      by_cases hsm : sm = true <;> by_cases hw : w i = true <;>
        simp_all [isFetched]

theorem isSavedOk_taskOutcome (se : Bool) (ex : List String)
    (f : Nat → Option FetchedDoc) (w : Nat → Bool) (i : Nat) (d : FetchTask) :
    isSavedOk (taskOutcome se true ex f w i d) =
      (!(skipCond se ex d) && ((f i).isSome && w i)) := by
  by_cases h : skipCond se ex d = true
  · simp [taskOutcome, h, isSavedOk]
  · have h' : skipCond se ex d = false := by simpa using h
    simp only [taskOutcome, h', Bool.false_eq_true, if_false]
    cases f i with
    | none => simp [isSavedOk, h']
    | some v =>
      by_cases hw : w i = true <;> simp_all [isSavedOk]

theorem taskOutcome_savedOk_isSome {se sm : Bool} {ex : List String}
    {f : Nat → Option FetchedDoc} {w : Nat → Bool} {i : Nat} {d : FetchTask}
    {oid fp : String} (h : taskOutcome se sm ex f w i d = .savedOk oid fp) :
    (f i).isSome = true := by
  by_cases hs : skipCond se ex d = true
  · rw [taskOutcome_of_skip hs] at h; exact absurd h (by simp)
  · have hs' : skipCond se ex d = false := by simpa using hs
    simp only [taskOutcome, hs', Bool.false_eq_true, if_false] at h
    cases hf : f i with
    | none => rw [hf] at h; exact absurd h (by simp)
    | some v => rfl

theorem mem_callIdxFrom {out : List TaskOutcome} : ∀ {k j : Nat},
    j ∈ callIdxFrom k out →
    ∃ i o, j = k + i ∧ out.get? i = some o ∧ isSkippedO o = false := by
  induction out with
  | nil => intro k j h; simp [callIdxFrom] at h
  | cons o os ih =>
    intro k j h
    by_cases ho : isSkippedO o = true
    · rw [show callIdxFrom k (o :: os) = callIdxFrom (k + 1) os by
        simp [callIdxFrom, ho]] at h
      obtain ⟨i, o2, hji, hg, hs⟩ := ih h
      exact ⟨i + 1, o2, by omega, by simpa using hg, hs⟩
    · have ho' : isSkippedO o = false := by simpa using ho
      rw [show callIdxFrom k (o :: os) = k :: callIdxFrom (k + 1) os by
        simp [callIdxFrom, ho']] at h
      rcases List.mem_cons.mp h with h1 | h1
      · exact ⟨0, o, by omega, by simp, ho'⟩
      · obtain ⟨i, o2, hji, hg, hs⟩ := ih h1
        exact ⟨i + 1, o2, by omega, by simpa using hg, hs⟩

theorem callIdxFrom_all : ∀ (out : List TaskOutcome) (k : Nat),
    (∀ o ∈ out, isSkippedO o = false) →
    callIdxFrom k out = List.range' k out.length
  | [], _, _ => rfl
  | o :: os, k, h => by
    have ho := h o (List.mem_cons_self o os)
    have hos : ∀ o2 ∈ os, isSkippedO o2 = false :=
      fun o2 hh => h o2 (List.mem_cons_of_mem o hh)
    rw [show callIdxFrom k (o :: os) = k :: callIdxFrom (k + 1) os by
      simp [callIdxFrom, ho]]
    rw [callIdxFrom_all os (k + 1) hos]
    rfl

theorem mem_writesFrom {out : List TaskOutcome} : ∀ {k j : Nat} {fp : String},
    (j, fp) ∈ writesFrom k out →
    ∃ i oid, j = k + i ∧ out.get? i = some (.savedOk oid fp) := by
  induction out with
  | nil => intro k j fp h; simp [writesFrom] at h
  | cons o os ih =>
    intro k j fp h
    match o with
    | .savedOk oid f0 =>
      rw [show writesFrom k (TaskOutcome.savedOk oid f0 :: os) =
          (k, f0) :: writesFrom (k + 1) os from rfl] at h
      rcases List.mem_cons.mp h with h1 | h1
      · have hj : j = k := congrArg Prod.fst h1
        have hf : fp = f0 := congrArg Prod.snd h1
        exact ⟨0, oid, by omega, by simp [hf]⟩
      · obtain ⟨i, oid2, hji, hg⟩ := ih h1
        exact ⟨i + 1, oid2, by omega, by simpa using hg⟩
    | .skipped =>
      rw [show writesFrom k (TaskOutcome.skipped :: os) =
          writesFrom (k + 1) os from rfl] at h
      obtain ⟨i, oid2, hji, hg⟩ := ih h
      exact ⟨i + 1, oid2, by omega, by simpa using hg⟩
    | .fetchFailed oid =>
      rw [show writesFrom k (TaskOutcome.fetchFailed oid :: os) =
          writesFrom (k + 1) os from rfl] at h
      obtain ⟨i, oid2, hji, hg⟩ := ih h
      exact ⟨i + 1, oid2, by omega, by simpa using hg⟩
    | .saveFailed oid f0 =>
      rw [show writesFrom k (TaskOutcome.saveFailed oid f0 :: os) =
          writesFrom (k + 1) os from rfl] at h
      obtain ⟨i, oid2, hji, hg⟩ := ih h
      exact ⟨i + 1, oid2, by omega, by simpa using hg⟩
    | .fetchedOnly oid =>
      rw [show writesFrom k (TaskOutcome.fetchedOnly oid :: os) =
          writesFrom (k + 1) os from rfl] at h
      obtain ⟨i, oid2, hji, hg⟩ := ih h
      exact ⟨i + 1, oid2, by omega, by simpa using hg⟩

theorem fas_ok_outcomes (forest : CategoryForest) (fe : String → Bool)
    (f : Nat → Option FetchedDoc) (w : Nat → Bool) (sm se : Bool) :
    (fetchAndSaveDocuments (.ok forest) fe f w sm se).outcomes =
      runOutcomes se sm (existingFilesOf se sm (extractForest forest "") fe) f w
        (extractForest forest "") := rfl

theorem fas_ok_total (forest : CategoryForest) (fe : String → Bool)
    (f : Nat → Option FetchedDoc) (w : Nat → Bool) (sm se : Bool) :
    (fetchAndSaveDocuments (.ok forest) fe f w sm se).total =
      (extractForest forest "").length := rfl

theorem fas_ok_failed (forest : CategoryForest) (fe : String → Bool)
    (f : Nat → Option FetchedDoc) (w : Nat → Bool) (sm se : Bool) :
    (fetchAndSaveDocuments (.ok forest) fe f w sm se).failed =
      (runOutcomes se sm (existingFilesOf se sm (extractForest forest "") fe) f w
        (extractForest forest "")).countP isFetchFailed := rfl

theorem fas_ok_successful (forest : CategoryForest) (fe : String → Bool)
    (f : Nat → Option FetchedDoc) (w : Nat → Bool) (sm se : Bool) :
    (fetchAndSaveDocuments (.ok forest) fe f w sm se).successful =
      (runOutcomes se sm (existingFilesOf se sm (extractForest forest "") fe) f w
        (extractForest forest "")).countP isFetched := rfl

theorem fas_ok_saved (forest : CategoryForest) (fe : String → Bool)
    (f : Nat → Option FetchedDoc) (w : Nat → Bool) (sm se : Bool) :
    (fetchAndSaveDocuments (.ok forest) fe f w sm se).saved =
      (runOutcomes se sm (existingFilesOf se sm (extractForest forest "") fe) f w
        (extractForest forest "")).countP isSavedOk := rfl

theorem fas_ok_skipped (forest : CategoryForest) (fe : String → Bool)
    (f : Nat → Option FetchedDoc) (w : Nat → Bool) (sm se : Bool) :
    (fetchAndSaveDocuments (.ok forest) fe f w sm se).skipped =
      (existingFilesOf se sm (extractForest forest "") fe).length := rfl

/-! ## Claim C2 -/

/-- C2 counterexample: the skipped count is the size of a set of paths, not
a count of tasks. Two sibling nodes both named "A" (with references r1 and
r2) produce two tasks with the same derived path "A"; when docs/A.md
exists, both tasks have an existing output file (the filter below has
length 2), yet the reported skipped count is 1. -/
theorem c2_counterexample :
    ((fetchAndSaveDocuments
        (.ok (.cons (.mk "A" "r1" "" "" true .nil)
          (.cons (.mk "A" "r2" "" "" true .nil) .nil)))
        (fun s => s == "docs/A.md") (fun _ => none) (fun _ => true)
        true true).skipped = 1) ∧
    (((extractForest (.cons (.mk "A" "r1" "" "" true .nil)
        (.cons (.mk "A" "r2" "" "" true .nil) .nil)) "").filter
        (fun d => mdFilePath d.path == "docs/A.md")).length = 2) := by
  decide

/-- C2 (amended): in a run with skip-existing (and markdown saving)
enabled, every task whose output file already exists is recorded as skipped
and triggers no network call, and the final skipped count equals the number
of distinct derived paths among tasks whose output file already existed
(the existing-file set is a set of paths, so duplicate-path tasks are
counted once). -/
theorem c2_skip_existing (forest : CategoryForest) (fe : String → Bool)
    (f : Nat → Option FetchedDoc) (w : Nat → Bool) :
    (∀ i d, (extractForest forest "").get? i = some d →
      fe (mdFilePath d.path) = true →
      ((fetchAndSaveDocuments (.ok forest) fe f w true true).outcomes.get? i =
          some .skipped) ∧
        i ∉ callIdxOf (fetchAndSaveDocuments (.ok forest) fe f w true true).outcomes) ∧
    (fetchAndSaveDocuments (.ok forest) fe f w true true).skipped =
      (((extractForest forest "").map FetchTask.path).filter
        (fun p => fe (mdFilePath p))).dedup.length := by
  constructor
  · intro i d hget hfe
    have hmem : d ∈ extractForest forest "" := List.get?_mem hget
    have hpath : d.path ∈ existingFilesOf true true (extractForest forest "") fe := by
      unfold existingFilesOf existingPaths
      simp only [Bool.and_self]
      rw [if_pos trivial, List.mem_dedup]
      exact List.mem_filter.mpr ⟨List.mem_map_of_mem FetchTask.path hmem, hfe⟩
    have hskip : skipCond true
        (existingFilesOf true true (extractForest forest "") fe) d = true := by
      unfold skipCond
      rw [Bool.true_and]
      exact List.elem_iff.mpr hpath
    have hout : (fetchAndSaveDocuments (.ok forest) fe f w true true).outcomes.get? i =
        some .skipped := by
      rw [fas_ok_outcomes, runOutcomes_get, hget]
      simp [taskOutcome_of_skip hskip]
    refine ⟨hout, ?_⟩
    intro hc
    obtain ⟨i2, o, hj, hg, hs⟩ := mem_callIdxFrom hc
    have hi : i2 = i := by omega
    subst hi
    rw [hout] at hg
    have : o = .skipped := by injection hg.symm
    rw [this] at hs
    simp [isSkippedO] at hs
  · rw [fas_ok_skipped]
    unfold existingFilesOf existingPaths
    simp

/-- Witness for C2 at a concrete input: a single task "A" whose file
docs/A.md exists is skipped and makes no call. -/
theorem c2_skip_existing_witness :
    ((fetchAndSaveDocuments (.ok (.cons (.mk "A" "r1" "" "" true .nil) .nil))
        (fun s => s == "docs/A.md") (fun _ => none) (fun _ => true)
        true true).outcomes.get? 0 = some .skipped) ∧
      0 ∉ callIdxOf (fetchAndSaveDocuments
        (.ok (.cons (.mk "A" "r1" "" "" true .nil) .nil))
        (fun s => s == "docs/A.md") (fun _ => none) (fun _ => true)
        true true).outcomes :=
  (c2_skip_existing (.cons (.mk "A" "r1" "" "" true .nil) .nil)
    (fun s => s == "docs/A.md") (fun _ => none) (fun _ => true)).1 0
    { nodeName := "A", relateDocument := "r1", relateDocId := "",
      nodeId := "", path := "A", isLeaf := true }
    (by decide) (by decide)

/-! ## Claim C3 -/

/-- C3: a task whose fetch fails (transport error, application rejection or
unparsable response all make `fetch_document` return None, modelled as the
oracle returning none) leaves the run intact: every task still gets an
outcome (length equality), the failed counter counts exactly the
non-skipped tasks whose fetch returned none (one increment per failing
task), and no file write is recorded for a task whose fetch returned
none. -/
theorem c3_fetch_failure_isolated (forest : CategoryForest) (fe : String → Bool)
    (f : Nat → Option FetchedDoc) (w : Nat → Bool) (sm se : Bool) :
    ((fetchAndSaveDocuments (.ok forest) fe f w sm se).outcomes.length =
      (fetchAndSaveDocuments (.ok forest) fe f w sm se).total) ∧
    ((fetchAndSaveDocuments (.ok forest) fe f w sm se).failed =
      (enumFrom 0 (extractForest forest "")).countP
        (fun q => !(skipCond se
            (existingFilesOf se sm (extractForest forest "") fe) q.2)
          && (f q.1).isNone)) ∧
    (∀ i fp, f i = none →
      (i, fp) ∉ writesOf
        (fetchAndSaveDocuments (.ok forest) fe f w sm se).outcomes) := by
  refine ⟨?_, ?_, ?_⟩
  · rw [fas_ok_outcomes, fas_ok_total, runOutcomes_length]
  · rw [fas_ok_failed, runOutcomes_countP]
    apply List.countP_congr
    intro q hq
    simp [isFetchFailed_taskOutcome]
  · intro i fp hf hmem
    rw [fas_ok_outcomes] at hmem
    obtain ⟨i2, oid, hj, hg⟩ := mem_writesFrom hmem
    have hi : i2 = i := by omega
    rw [hi] at hg
    rw [runOutcomes_get] at hg
    cases hd : (extractForest forest "").get? i with
    | none => rw [hd] at hg; exact absurd hg (by simp)
    | some d =>
      rw [hd] at hg
      have heq : taskOutcome se sm
          (existingFilesOf se sm (extractForest forest "") fe) f w i d =
          .savedOk oid fp := by
        injection hg
      have := taskOutcome_savedOk_isSome heq
      rw [hf] at this
      simp at this

/-- Witness for C3 at a concrete input: the single task's fetch fails, no
write is recorded for it, and the failed count is 1. -/
theorem c3_fetch_failure_isolated_witness :
    ((0, "docs/A.md") ∉ writesOf
      (fetchAndSaveDocuments (.ok (.cons (.mk "A" "r1" "" "" true .nil) .nil))
        (fun _ => false) (fun _ => none) (fun _ => true) true false).outcomes) ∧
    (fetchAndSaveDocuments (.ok (.cons (.mk "A" "r1" "" "" true .nil) .nil))
        (fun _ => false) (fun _ => none) (fun _ => true) true false).failed = 1 :=
  ⟨(c3_fetch_failure_isolated (.cons (.mk "A" "r1" "" "" true .nil) .nil)
      (fun _ => false) (fun _ => none) (fun _ => true) true false).2.2
      0 "docs/A.md" rfl,
   by decide⟩

/-! ## Claim C7 -/

/-- C7 counterexample: a write failure is caught and the run continues, but
it is not counted in the failed count. With one task whose fetch succeeds
and whose write raises, the outcome trace shows the caught write failure,
yet failed = 0 (and saved = 0 while successful = 1). -/
theorem c7_counterexample :
    ((fetchAndSaveDocuments (.ok (.cons (.mk "A" "r1" "" "" true .nil) .nil))
        (fun _ => false) (fun _ => some ⟨none, none, none, [], none⟩)
        (fun _ => false) true false).outcomes =
      [TaskOutcome.saveFailed "r1" "docs/A.md"]) ∧
    (fetchAndSaveDocuments (.ok (.cons (.mk "A" "r1" "" "" true .nil) .nil))
        (fun _ => false) (fun _ => some ⟨none, none, none, [], none⟩)
        (fun _ => false) true false).failed = 0 ∧
    (fetchAndSaveDocuments (.ok (.cons (.mk "A" "r1" "" "" true .nil) .nil))
        (fun _ => false) (fun _ => some ⟨none, none, none, [], none⟩)
        (fun _ => false) true false).saved = 0 ∧
    (fetchAndSaveDocuments (.ok (.cons (.mk "A" "r1" "" "" true .nil) .nil))
        (fun _ => false) (fun _ => some ⟨none, none, none, [], none⟩)
        (fun _ => false) true false).successful = 1 := by
  decide

/-- C7 (amended): a failure while writing a task's output file is caught at
the task boundary and the run continues: every task still gets an outcome;
the failed count covers exactly the fetch failures (a write failure does
not enter it); the successful count covers every fetched task including
those whose write failed; the saved count covers exactly the tasks whose
write succeeded; and no file write is recorded for a task whose write
failed. -/
theorem c7_write_failure_recoverable (forest : CategoryForest) (fe : String → Bool)
    (f : Nat → Option FetchedDoc) (w : Nat → Bool) (se : Bool) :
    ((fetchAndSaveDocuments (.ok forest) fe f w true se).outcomes.length =
      (fetchAndSaveDocuments (.ok forest) fe f w true se).total) ∧
    ((fetchAndSaveDocuments (.ok forest) fe f w true se).failed =
      (enumFrom 0 (extractForest forest "")).countP
        (fun q => !(skipCond se
            (existingFilesOf se true (extractForest forest "") fe) q.2)
          && (f q.1).isNone)) ∧
    ((fetchAndSaveDocuments (.ok forest) fe f w true se).successful =
      (enumFrom 0 (extractForest forest "")).countP
        (fun q => !(skipCond se
            (existingFilesOf se true (extractForest forest "") fe) q.2)
          && (f q.1).isSome)) ∧
    ((fetchAndSaveDocuments (.ok forest) fe f w true se).saved =
      (enumFrom 0 (extractForest forest "")).countP
        (fun q => !(skipCond se
            (existingFilesOf se true (extractForest forest "") fe) q.2)
          && ((f q.1).isSome && w q.1))) ∧
    (∀ i oid fp, (fetchAndSaveDocuments (.ok forest) fe f w true se).outcomes.get? i =
        some (.saveFailed oid fp) →
      ∀ fp2, (i, fp2) ∉ writesOf
        (fetchAndSaveDocuments (.ok forest) fe f w true se).outcomes) := by
  refine ⟨?_, ?_, ?_, ?_, ?_⟩
  · rw [fas_ok_outcomes, fas_ok_total, runOutcomes_length]
  · rw [fas_ok_failed, runOutcomes_countP]
    apply List.countP_congr
    intro q hq
    simp [isFetchFailed_taskOutcome]
  · rw [fas_ok_successful, runOutcomes_countP]
    apply List.countP_congr
    intro q hq
    simp [isFetched_taskOutcome]
  · rw [fas_ok_saved, runOutcomes_countP]
    apply List.countP_congr
    intro q hq
    simp [isSavedOk_taskOutcome]
  · intro i oid fp hsf fp2 hmem
    rw [fas_ok_outcomes] at hmem
    obtain ⟨i2, oid2, hj, hg⟩ := mem_writesFrom hmem
    have hi : i2 = i := by omega
    rw [hi] at hg
    rw [fas_ok_outcomes] at hsf
    rw [hsf] at hg
    have heq : TaskOutcome.saveFailed oid fp = TaskOutcome.savedOk oid2 fp2 :=
      Option.some.inj hg
    exact absurd heq (by simp)

/-- Witness for C7 at a concrete input: the single task's write fails, and
no write is recorded for it. -/
theorem c7_write_failure_recoverable_witness :
    (0, "docs/A.md") ∉ writesOf
      (fetchAndSaveDocuments (.ok (.cons (.mk "A" "r1" "" "" true .nil) .nil))
        (fun _ => false) (fun _ => some ⟨none, none, none, [], none⟩)
        (fun _ => false) true false).outcomes :=
  (c7_write_failure_recoverable (.cons (.mk "A" "r1" "" "" true .nil) .nil)
      (fun _ => false) (fun _ => some ⟨none, none, none, [], none⟩)
      (fun _ => false) false).2.2.2.2 0 "r1" "docs/A.md" (by decide) "docs/A.md"

/-! ## Claim C10 -/

/-- C10: with save_markdown disabled the existing-output scan never runs:
the existing-files set is empty, the skipped count is 0, and every task
makes a network call (the call positions are exactly 0..total-1), whatever
skip_existing and the filesystem say — so skip_existing has an effect only
when save_markdown is enabled. -/
theorem c10_skip_inert_without_save (forest : CategoryForest) (fe : String → Bool)
    (f : Nat → Option FetchedDoc) (w : Nat → Bool) (se : Bool) :
    ((fetchAndSaveDocuments (.ok forest) fe f w false se).skipped = 0) ∧
    (existingFilesOf se false (extractForest forest "") fe = []) ∧
    (callIdxOf (fetchAndSaveDocuments (.ok forest) fe f w false se).outcomes =
      List.range' 0 (fetchAndSaveDocuments (.ok forest) fe f w false se).total) := by
  have hex : existingFilesOf se false (extractForest forest "") fe = [] := by
    simp [existingFilesOf]
  refine ⟨?_, hex, ?_⟩
  · rw [fas_ok_skipped, hex]
    rfl
  · rw [fas_ok_outcomes, fas_ok_total, hex]
    unfold callIdxOf
    rw [callIdxFrom_all _ 0 ?_, runOutcomes_length]
    intro o ho
    obtain ⟨q, hq, rfl⟩ := List.mem_map.mp ho
    rw [isSkippedO_taskOutcome]
    simp [skipCond]

/-! ## Claim C8 -/

/-- C8 counterexample: the claim requires a non-zero process exit code on a
missing or unparsable category index, but the fetch_documents.py entry
point (one of the two programs reading the index at startup, cited by the
claim) handles the error by returning from main, so the process finishes
with exit code 0. -/
theorem c8_counterexample :
    (fetchDocumentsMain (.error .fileNotFound) (fun _ => none)).exitCode = 0 := rfl

/-- C8 (amended): if the category index file is missing or its JSON is
unparsable, both entry points abort at startup before any per-task
processing (the pipeline returns an unsuccessful result with no outcomes
and no tasks, and the standalone script makes no fetch call); the main.py
entry point then exits with the non-zero code 1, while the
fetch_documents.py entry point returns from main and exits with code 0. -/
theorem c8_startup_read_failure (e : ReadError) (fe : String → Bool)
    (f : Nat → Option FetchedDoc) (w : Nat → Bool) (sm se : Bool) :
    ((fetchAndSaveDocuments (.error e) fe f w sm se).success = false) ∧
    ((fetchAndSaveDocuments (.error e) fe f w sm se).outcomes = []) ∧
    ((fetchAndSaveDocuments (.error e) fe f w sm se).total = 0) ∧
    (mainPyExitCode (.error e) fe f w = 1) ∧
    ((fetchDocumentsMain (.error e) f).calls = []) ∧
    ((fetchDocumentsMain (.error e) f).exitCode = 0) :=
  ⟨rfl, rfl, rfl, rfl, rfl, rfl⟩

/-! ## Claim C9 -/

/-- C9: if the HTML-to-Markdown conversion (the try body around the
html2text collaborator) fails, `html_to_markdown` returns without raising
and emits the raw, unconverted body in place of the Markdown. -/
theorem c9_conversion_fallback (conv : String → Option String) (html : String)
    (h : conv html = none) : htmlToMarkdown conv html = html := by
  by_cases he : html = ""
  · simp [htmlToMarkdown, he]
  · simp [htmlToMarkdown, he, h]

/-- Witness for C9 at a concrete input: a converter that always raises
makes the function return its raw input. -/
theorem c9_conversion_fallback_witness :
    htmlToMarkdown (fun _ => none) "<p>hi</p>" = "<p>hi</p>" :=
  c9_conversion_fallback (fun _ => none) "<p>hi</p>" rfl
